import Mathlib

/-!
# Verification of the Expense ledger core

A shallow embedding of the filtered-query and aggregation engine of the
expense-tracker service (Go), together with theorems checking the
natural-language specification against it.

The embedding follows the Go source:
* `internal/model/transaction.go` — data model (`Transaction`, filters,
  `AggregatedStats`, `UserStat`);
* `internal/repository/user_repo.go` — `FindByUser`, `FindAll`,
  `GetAggregatedStats` (SQL queries modelled as list computations over an
  in-memory database, and the query *texts* modelled as strings for the
  injection-safety claims);
* the transaction service (`transaction_service.go`) — access checks,
  date normalization, receipt upload, CSV export.

Monetary amounts are Go `int64`; sums are computed by PostgreSQL as
arbitrary-precision numerics, so they are modelled as unbounded `Int`.
Timestamps are modelled as civil date-times in a single fixed location
(the store keeps `timestamptz`; all code paths here use one location),
compared lexicographically by field.
-/

namespace Expense

/-- Civil timestamp: calendar fields plus a UTC offset in minutes (the
`time.Location` of the Go `time.Time`).  All comparisons in the code under
study happen between timestamps of the same location, so ordering is
lexicographic on the calendar fields. -/
structure DateTime where
  year : Nat
  month : Nat
  day : Nat
  hour : Nat
  minute : Nat
  second : Nat
  nanosecond : Nat
  offsetMinutes : Int := 0
  deriving Repr, DecidableEq

/-- Holds when `a` is at or before `b`: lexicographic comparison of the calendar
fields (the model of `transaction_date >= $n` / `<= $n` in SQL, and of
`time.Time` ordering within one location). -/
def DateTime.le (a b : DateTime) : Bool :=
  if a.year ≠ b.year then a.year < b.year
  else if a.month ≠ b.month then a.month < b.month
  else if a.day ≠ b.day then a.day < b.day
  else if a.hour ≠ b.hour then a.hour < b.hour
  else if a.minute ≠ b.minute then a.minute < b.minute
  else if a.second ≠ b.second then a.second < b.second
  else a.nanosecond ≤ b.nanosecond

/-- The `model.TransactionTypeIncome` -/
def TransactionTypeIncome : String := "income"

/-- The `model.TransactionTypeExpense` -/
def TransactionTypeExpense : String := "expense"

/-- The `model.RoleAdmin` -/
def RoleAdmin : String := "admin"

/-- The `model.RoleUser` -/
def RoleUser : String := "user"

/-- The `model.Transaction` (transaction.go).  `Type'` stands for the Go field
`Type` (a Lean keyword).  `Amount` is in minor currency units. -/
structure Transaction where
  ID : Int
  UserID : Int
  Amount : Int
  Type' : String
  Category : String
  Description : Option String
  TransactionDate : DateTime
  ReceiptPath : Option String
  CreatedAt : DateTime
  UpdatedAt : DateTime
  deriving Repr, DecidableEq

/-- The `model.AdminTransactionFilters`: every field optional, `none` = the Go
nil pointer (no constraint). -/
structure AdminTransactionFilters where
  UserID : Option Int := none
  StartDate : Option DateTime := none
  EndDate : Option DateTime := none
  Category : Option String := none
  Type' : Option String := none
  deriving Repr, DecidableEq

/-- The `model.UserTransactionFilters` -/
structure UserTransactionFilters where
  Type' : Option String := none
  Category : Option String := none
  StartDate : Option DateTime := none
  EndDate : Option DateTime := none
  deriving Repr, DecidableEq

/-- The `model.UserStat` -/
structure UserStat where
  UserID : Int
  UserPhone : String
  TotalSpent : Int
  TotalIncome : Int
  TransactionCount : Int
  deriving Repr, DecidableEq

/-- The `model.AggregatedStats`.  The Go maps (`map[string]int64`,
`map[int]model.UserStat`) are modelled as association lists with distinct
keys; `make(...)` initializes them to the empty map, modelled by `[]`. -/
structure AggregatedStats where
  TotalIncome : Int
  TotalExpenses : Int
  Balance : Int
  ByCategoryIncome : List (String × Int)
  ByCategoryExpense : List (String × Int)
  ByUserSpending : List (Int × UserStat)
  deriving Repr, DecidableEq

/-- A row of the `users` table (the columns the aggregation joins on). -/
structure UserRow where
  id : Int
  phone : String
  deriving Repr, DecidableEq

/-- The relational state the repository queries run against. -/
structure DB where
  transactions : List Transaction
  users : List UserRow
  deriving Repr, DecidableEq

/-! ## Predicate compiler semantics

`txMatchesAdmin` is the meaning of the WHERE clause both `FindAll` and
`GetAggregatedStats` build: one conjunct per present filter field; a
`Type`/`Category` filter that is present but the empty string contributes
no clause (the Go guard is `ptr != nil && *ptr != ""`). -/

/-- Row-level meaning of the admin filter conjunction (user_repo.go,
`FindAll` lines 241–265 / `GetAggregatedStats` lines 311–337). -/
def txMatchesAdmin (F : AdminTransactionFilters) (t : Transaction) : Bool :=
  (match F.UserID with
   | none => true
   | some v => t.UserID == v) &&
  (match F.Type' with
   | none => true
   | some s => s == "" || t.Type' == s) &&
  (match F.Category with
   | none => true
   | some s => s == "" || t.Category == s) &&
  (match F.StartDate with
   | none => true
   | some d => DateTime.le d t.TransactionDate) &&
  (match F.EndDate with
   | none => true
   | some d => DateTime.le t.TransactionDate d)

/-- A row of `FROM transactions t JOIN users u ON t.user_id = u.id`. -/
structure JoinRow where
  tx : Transaction
  phone : String
  deriving Repr, DecidableEq

/-- The join `transactions t JOIN users u ON t.user_id = u.id`. -/
def joinRows (db : DB) : List JoinRow :=
  db.transactions.flatMap fun t =>
    (db.users.filter fun u => u.id == t.UserID).map fun u => ⟨t, u.phone⟩

/-- The filtered subset every sub-query of `GetAggregatedStats` ranges
over: the join restricted by the compiled WHERE clause. -/
def statsRows (db : DB) (F : AdminTransactionFilters) : List JoinRow :=
  (joinRows db).filter fun r => txMatchesAdmin F r.tx

/-- The `SUM(CASE WHEN t.type = 'income' THEN t.amount ELSE 0 END)` with
`COALESCE(..., 0)` over a row list. -/
def totalIncomeOf (rows : List JoinRow) : Int :=
  (rows.map fun r => if r.tx.Type' == TransactionTypeIncome then r.tx.Amount else 0).sum

/-- The `SUM(CASE WHEN t.type = 'expense' THEN t.amount ELSE 0 END)` with
`COALESCE(..., 0)` over a row list. -/
def totalExpensesOf (rows : List JoinRow) : Int :=
  (rows.map fun r => if r.tx.Type' == TransactionTypeExpense then r.tx.Amount else 0).sum

/-- One step of `GROUP BY t.category` + `SUM(t.amount)`: add `amt` to the
group of `cat`, creating the group on first appearance. -/
def bumpCategory (acc : List (String × Int)) (cat : String) (amt : Int) :
    List (String × Int) :=
  match acc with
  | [] => [(cat, amt)]
  | (c, s) :: rest =>
      if c == cat then (c, s + amt) :: rest else (c, s) :: bumpCategory rest cat amt

/-- The `SELECT t.category, COALESCE(SUM(t.amount), 0) ... GROUP BY
t.category` over a row list. -/
def groupByCategory (rows : List JoinRow) : List (String × Int) :=
  rows.foldl (fun acc r => bumpCategory acc r.tx.Category r.tx.Amount) []

/-- Per-row expense contribution (`CASE WHEN t.type = 'expense' ...`). -/
def expenseAmt (r : JoinRow) : Int :=
  if r.tx.Type' == TransactionTypeExpense then r.tx.Amount else 0

/-- Per-row income contribution (`CASE WHEN t.type = 'income' ...`). -/
def incomeAmt (r : JoinRow) : Int :=
  if r.tx.Type' == TransactionTypeIncome then r.tx.Amount else 0

/-- One step of `GROUP BY t.user_id, u.phone` accumulating a `UserStat`
(total_spent, total_income, transaction_count). -/
def bumpUser (acc : List UserStat) (r : JoinRow) : List UserStat :=
  match acc with
  | [] => [⟨r.tx.UserID, r.phone, expenseAmt r, incomeAmt r, 1⟩]
  | us :: rest =>
      if us.UserID == r.tx.UserID && us.UserPhone == r.phone then
        { us with
          TotalSpent := us.TotalSpent + expenseAmt r
          TotalIncome := us.TotalIncome + incomeAmt r
          TransactionCount := us.TransactionCount + 1 } :: rest
      else us :: bumpUser rest r

/-- The result rows of the per-user GROUP BY query (one `UserStat` per
`(user_id, phone)` group, in order of first appearance). -/
def userGroups (rows : List JoinRow) : List UserStat :=
  rows.foldl bumpUser []

/-- Go map assignment `m[k] = v`: replace the entry with key `k`, or
append a fresh one. -/
def mapInsert (m : List (Int × UserStat)) (k : Int) (v : UserStat) :
    List (Int × UserStat) :=
  match m with
  | [] => [(k, v)]
  | (k', v') :: rest =>
      if k' == k then (k', v) :: rest else (k', v') :: mapInsert rest k v

/-- The loop `for rows.Next() { ...; stats.ByUserSpending[us.UserID] = us }`. -/
def buildUserSpending (groups : List UserStat) : List (Int × UserStat) :=
  groups.foldl (fun m us => mapInsert m us.UserID us) []

/-- Guard on computing the income category grouping
(`filters.Type == nil || *filters.Type == model.TransactionTypeIncome`). -/
def incomeGuard (F : AdminTransactionFilters) : Bool :=
  match F.Type' with
  | none => true
  | some s => s == TransactionTypeIncome

/-- Guard on computing the expense category grouping. -/
def expenseGuard (F : AdminTransactionFilters) : Bool :=
  match F.Type' with
  | none => true
  | some s => s == TransactionTypeExpense

/-- The `GetAggregatedStats` (user_repo.go lines 296–458): totals, balance,
two category groupings (the extra `t.type = ...` clause is layered only
when the caller supplied no type filter), and the per-user breakdown over
the *unmodified* WHERE clause. -/
def GetAggregatedStats (db : DB) (F : AdminTransactionFilters) : AggregatedStats :=
  let rows := statsRows db F
  let ti := totalIncomeOf rows
  let te := totalExpensesOf rows
  { TotalIncome := ti
    TotalExpenses := te
    Balance := ti - te
    ByCategoryIncome :=
      if incomeGuard F then
        groupByCategory
          (if F.Type' = none then
            rows.filter fun r => r.tx.Type' == TransactionTypeIncome
           else rows)
      else []
    ByCategoryExpense :=
      if expenseGuard F then
        groupByCategory
          (if F.Type' = none then
            rows.filter fun r => r.tx.Type' == TransactionTypeExpense
           else rows)
      else []
    ByUserSpending := buildUserSpending (userGroups rows) }

/-! ## Predicate compiler: query texts and bound parameters

The Go code builds the query text with `fmt.Sprintf` patterns whose only
format argument is the running parameter index `argCount`; the filter
*values* go into the `args` slice passed to `db.Query`.  We model the
built text as a `String` and the bound parameters as `SqlValue`s. -/

/-- A value bound as a query parameter (an element of the Go `args`
slice). -/
inductive SqlValue
  | int (i : Int)
  | str (s : String)
  | date (d : DateTime)
  deriving Repr, DecidableEq

/-- The condition-building block shared verbatim by `FindAll`
(lines 237–265) and `GetAggregatedStats` (lines 307–337): returns the
clause texts, the bound values, and the final `argCount`.  (`FindAll`
has the last `argCount++` commented out, but never reads `argCount`
afterwards, so one definition serves both.) -/
def adminConditions (F : AdminTransactionFilters) :
    List String × List SqlValue × Nat :=
  let acc : List String × List SqlValue × Nat := ([], [], 1)
  let acc := match F.UserID with
    | some v => (acc.1 ++ ["t.user_id = $" ++ toString acc.2.2],
                 acc.2.1 ++ [SqlValue.int v], acc.2.2 + 1)
    | none => acc
  let acc := match F.Type' with
    | some s =>
        if s == "" then acc
        else (acc.1 ++ ["t.type = $" ++ toString acc.2.2],
              acc.2.1 ++ [SqlValue.str s], acc.2.2 + 1)
    | none => acc
  let acc := match F.Category with
    | some s =>
        if s == "" then acc
        else (acc.1 ++ ["t.category = $" ++ toString acc.2.2],
              acc.2.1 ++ [SqlValue.str s], acc.2.2 + 1)
    | none => acc
  let acc := match F.StartDate with
    | some d => (acc.1 ++ ["t.transaction_date >= $" ++ toString acc.2.2],
                 acc.2.1 ++ [SqlValue.date d], acc.2.2 + 1)
    | none => acc
  let acc := match F.EndDate with
    | some d => (acc.1 ++ ["t.transaction_date <= $" ++ toString acc.2.2],
                 acc.2.1 ++ [SqlValue.date d], acc.2.2 + 1)
    | none => acc
  acc

/-- The SELECT head of `FindAll` (raw Go string literal, including its
trailing space, newline and 31-space continuation indent). -/
def findAllSelect : String :=
  "SELECT t.id, t.user_id, t.amount, t.type, t.category, t.description, t.transaction_date, t.receipt_path, t.created_at, t.updated_at \n                               FROM transactions t"

/-- The full query text `FindAll` passes to `db.Query`. -/
def findAllQuery (F : AdminTransactionFilters) : String :=
  let conditions := (adminConditions F).1
  findAllSelect ++
    (if conditions.length > 0 then
      " WHERE " ++ String.intercalate (" AND ") conditions
     else "") ++
    " ORDER BY t.transaction_date DESC, t.created_at DESC"

/-- The `baseQuery` of `GetAggregatedStats`. -/
def statsBaseQuery : String := "FROM transactions t JOIN users u ON t.user_id = u.id"

/-- The `whereClause` of `GetAggregatedStats`. -/
def statsWhereClause (F : AdminTransactionFilters) : String :=
  let conditions := (adminConditions F).1
  if conditions.length > 0 then " WHERE " ++ String.intercalate (" AND ") conditions
  else ""

/-- The `argCount` after the shared condition-building block. -/
def statsArgCount (F : AdminTransactionFilters) : Nat := (adminConditions F).2.2

/-- The `sumQuery` text (raw literal: leading newline and indentation). -/
def sumQuery (F : AdminTransactionFilters) : String :=
  "\n        SELECT \n            COALESCE(SUM(CASE WHEN t.type = 'income' THEN t.amount ELSE 0 END), 0) as total_income,\n            COALESCE(SUM(CASE WHEN t.type = 'expense' THEN t.amount ELSE 0 END), 0) as total_expenses\n        "
    ++ statsBaseQuery ++ " " ++ statsWhereClause F

/-- The `incomeCategoryWhereClause`: when no type filter was supplied the
clause `t.type = $n` is layered onto the caller's WHERE clause. -/
def incomeCategoryWhereClause (F : AdminTransactionFilters) : String :=
  if F.Type' = none then
    if statsWhereClause F == "" then
      " WHERE t.type = $" ++ toString (statsArgCount F)
    else
      statsWhereClause F ++ " AND t.type = $" ++ toString (statsArgCount F)
  else statsWhereClause F

/-- The `expenseCategoryWhereClause` (symmetric). -/
def expenseCategoryWhereClause (F : AdminTransactionFilters) : String :=
  if F.Type' = none then
    if statsWhereClause F == "" then
      " WHERE t.type = $" ++ toString (statsArgCount F)
    else
      statsWhereClause F ++ " AND t.type = $" ++ toString (statsArgCount F)
  else statsWhereClause F

/-- The `categoryIncomeQuery` text. -/
def categoryIncomeQuery (F : AdminTransactionFilters) : String :=
  "SELECT t.category, COALESCE(SUM(t.amount), 0) " ++ statsBaseQuery ++ " "
    ++ incomeCategoryWhereClause F ++ " GROUP BY t.category"

/-- The `categoryExpenseQuery` text. -/
def categoryExpenseQuery (F : AdminTransactionFilters) : String :=
  "SELECT t.category, COALESCE(SUM(t.amount), 0) " ++ statsBaseQuery ++ " "
    ++ expenseCategoryWhereClause F ++ " GROUP BY t.category"

/-- The `userSpendingQuery` text (raw literal). -/
def userSpendingQuery (F : AdminTransactionFilters) : String :=
  "\n        SELECT \n            t.user_id, \n            u.phone,\n            COALESCE(SUM(CASE WHEN t.type = 'expense' THEN t.amount ELSE 0 END), 0) as total_spent,\n            COALESCE(SUM(CASE WHEN t.type = 'income' THEN t.amount ELSE 0 END), 0) as total_income,\n            COUNT(t.id) as transaction_count\n        "
    ++ statsBaseQuery ++ " " ++ statsWhereClause F ++ " GROUP BY t.user_id, u.phone"

/-- The query texts `GetAggregatedStats` actually sends, in order: the
totals query, the category queries gated by the type guards, and the
per-user query. -/
def statsQueries (F : AdminTransactionFilters) : List String :=
  [sumQuery F]
    ++ (if incomeGuard F then [categoryIncomeQuery F] else [])
    ++ (if expenseGuard F then [categoryExpenseQuery F] else [])
    ++ [userSpendingQuery F]

/-- Is an optional string filter field present and non-empty?  (The Go
guard `ptr != nil && *ptr != ""`.) -/
def presentStr : Option String → Bool
  | none => false
  | some s => !(s == "")

/-- The presence pattern of a filter specification: which of the five
dimensions contribute a clause. -/
def filterPattern (F : AdminTransactionFilters) :
    Bool × Bool × Bool × Bool × Bool :=
  (F.UserID.isSome, presentStr F.Type', presentStr F.Category,
   F.StartDate.isSome, F.EndDate.isSome)

/-- Clause texts and final `argCount` as a function of the presence
pattern alone (used to show the built text carries no filter value). -/
def clausesOfPattern (p : Bool × Bool × Bool × Bool × Bool) :
    List String × Nat :=
  let acc : List String × Nat := ([], 1)
  let acc := if p.1 then (acc.1 ++ ["t.user_id = $" ++ toString acc.2], acc.2 + 1) else acc
  let acc := if p.2.1 then (acc.1 ++ ["t.type = $" ++ toString acc.2], acc.2 + 1) else acc
  let acc := if p.2.2.1 then (acc.1 ++ ["t.category = $" ++ toString acc.2], acc.2 + 1) else acc
  let acc := if p.2.2.2.1 then (acc.1 ++ ["t.transaction_date >= $" ++ toString acc.2], acc.2 + 1) else acc
  let acc := if p.2.2.2.2 then (acc.1 ++ ["t.transaction_date <= $" ++ toString acc.2], acc.2 + 1) else acc
  acc

/-- Number of present dimensions in a pattern. -/
def patternCount (p : Bool × Bool × Bool × Bool × Bool) : Nat :=
  (cond p.1 1 0) + (cond p.2.1 1 0) + (cond p.2.2.1 1 0)
    + (cond p.2.2.2.1 1 0) + (cond p.2.2.2.2 1 0)

/-! ## Listings: `FindByUser`, `FindAll` -/

/-- Holds when `a` sorts no later than `b` under
`ORDER BY transaction_date DESC, created_at DESC`. -/
def beforeInListing (a b : Transaction) : Bool :=
  if a.TransactionDate = b.TransactionDate then
    DateTime.le b.CreatedAt a.CreatedAt
  else DateTime.le b.TransactionDate a.TransactionDate

/-- Insertion step for the listing order. -/
def insertListing (t : Transaction) : List Transaction → List Transaction
  | [] => [t]
  | u :: rest =>
      if beforeInListing t u then t :: u :: rest else u :: insertListing t rest

/-- Sort a listing by `(transaction_date DESC, created_at DESC)`. -/
def sortListing : List Transaction → List Transaction
  | [] => []
  | t :: rest => insertListing t (sortListing rest)

/-- The per-user filter conjunction of `FindByUser` (user_repo.go lines
142–161): type/category only when present and non-empty, inclusive date
bounds. -/
def userTxMatches (f : UserTransactionFilters) (t : Transaction) : Bool :=
  (match f.Type' with
   | none => true
   | some s => s == "" || t.Type' == s) &&
  (match f.Category with
   | none => true
   | some s => s == "" || t.Category == s) &&
  (match f.StartDate with
   | none => true
   | some d => DateTime.le d t.TransactionDate) &&
  (match f.EndDate with
   | none => true
   | some d => DateTime.le t.TransactionDate d)

/-- The `FindByUser`: rows of one user matching the filters, in listing
order. -/
def FindByUser (db : DB) (userID : Int) (f : UserTransactionFilters) :
    List Transaction :=
  sortListing (db.transactions.filter fun t =>
    t.UserID == userID && userTxMatches f t)

/-- The `FindAll`: all rows matching the admin filters, in listing order. -/
def FindAll (db : DB) (F : AdminTransactionFilters) : List Transaction :=
  sortListing (db.transactions.filter (txMatchesAdmin F))

/-! ## Date-range normalizer and `GetUserTransactions` -/

/-- The `time.Date(y, m, d, 0, 0, 0, 0, loc)` for the calendar day of `d`. -/
def startOfDay (d : DateTime) : DateTime :=
  { d with hour := 0, minute := 0, second := 0, nanosecond := 0 }

/-- The `time.Date(y, m, d, 23, 59, 59, 999999999, loc)`: last instant of the
calendar day of `d`. -/
def endOfDay (d : DateTime) : DateTime :=
  { d with hour := 23, minute := 59, second := 59, nanosecond := 999999999 }

/-- The Go zero-time-of-day test
`t.Hour() == 0 && t.Minute() == 0 && t.Second() == 0` (nanoseconds are
not inspected). -/
def isMidnightHMS (d : DateTime) : Bool :=
  d.hour == 0 && d.minute == 0 && d.second == 0

/-- The date normalization at the top of `GetUserTransactions`: a
zero-time start boundary is snapped to the start of its day and, when no
end boundary was supplied, the end boundary becomes the last instant of
that same day; afterwards a zero-time end boundary is extended to the
last instant of its day. -/
def normalizeUserFilters (f : UserTransactionFilters) : UserTransactionFilters :=
  let f₁ :=
    match f.StartDate with
    | some sd =>
        if isMidnightHMS sd then
          let sod := startOfDay sd
          { f with
            StartDate := some sod
            EndDate :=
              match f.EndDate with
              | none => some (endOfDay sod)
              | some e => some e }
        else f
    | none => f
  match f₁.EndDate with
  | some ed =>
      if isMidnightHMS ed then { f₁ with EndDate := some (endOfDay ed) } else f₁
  | none => f₁

/-- The `transactionService.GetUserTransactions`: normalize the date filters,
then query. -/
def GetUserTransactions (db : DB) (userID : Int)
    (filters : UserTransactionFilters) : List Transaction :=
  FindByUser db userID (normalizeUserFilters filters)

/-! ## Access policy: the service-layer single-record operations -/

/-- The sentinel errors of the transaction service
(`ErrTransactionNotFound`, `ErrForbidden`, `ErrInvalidFileFormat`,
`ErrFileSizeExceeded`) plus the "receipt not found" failure of
`GetReceiptPath`. -/
inductive ServiceError
  | transactionNotFound
  | forbidden
  | invalidFileFormat
  | fileSizeExceeded
  | receiptMissing
  deriving Repr, DecidableEq

/-- Repository `FindByID`: point lookup, `nil` when no row matches. -/
def FindByID (db : DB) (id : Int) : Option Transaction :=
  db.transactions.find? fun t => t.ID == id

/-- The `transactionService.GetTransactionByID`: not-found is checked first;
then a caller who is neither an administrator nor the owner is
forbidden. -/
def GetTransactionByID (db : DB) (transactionID userID : Int)
    (userRole : String) : Except ServiceError Transaction :=
  match FindByID db transactionID with
  | none => .error .transactionNotFound
  | some transaction =>
      if userRole != RoleAdmin && transaction.UserID != userID then
        .error .forbidden
      else .ok transaction

/-- The `model.UpdateTransactionRequest`: every field optional (partial
update). -/
structure UpdateTransactionRequest where
  Amount : Option Int := none
  Type' : Option String := none
  Category : Option String := none
  Description : Option String := none
  TransactionDate : Option DateTime := none
  deriving Repr, DecidableEq

/-- The field-by-field application of a partial update (the `// Apply
updates` block of `UpdateTransaction`), stamping `UpdatedAt` with the
current time. -/
def applyUpdates (existingTx : Transaction) (req : UpdateTransactionRequest)
    (now : DateTime) : Transaction :=
  let t := match req.Amount with
    | some a => { existingTx with Amount := a }
    | none => existingTx
  let t := match req.Type' with
    | some ty => { t with Type' := ty }
    | none => t
  let t := match req.Category with
    | some c => { t with Category := c }
    | none => t
  let t := match req.Description with
    | some d => { t with Description := some d }
    | none => t
  let t := match req.TransactionDate with
    | some d => { t with TransactionDate := d }
    | none => t
  { t with UpdatedAt := now }

/-- The `transactionService.UpdateTransaction`.  Note the ownership check is
`existingTx.UserID != userID` with no role parameter at all ("Only author
can edit"); the repository `UPDATE ... WHERE id = $6 AND user_id = $7`
then matches the row just fetched, so it succeeds. -/
def UpdateTransaction (db : DB) (transactionID userID : Int)
    (req : UpdateTransactionRequest) (now : DateTime) :
    Except ServiceError Transaction :=
  match FindByID db transactionID with
  | none => .error .transactionNotFound
  | some existingTx =>
      if existingTx.UserID != userID then .error .forbidden
      else .ok (applyUpdates existingTx req now)

/-- The `transactionService.DeleteTransaction`: admins may delete any row,
others only their own; the repository delete of an existing row
succeeds. -/
def DeleteTransaction (db : DB) (transactionID userID : Int)
    (userRole : String) : Except ServiceError Unit :=
  match FindByID db transactionID with
  | none => .error .transactionNotFound
  | some existingTx =>
      if userRole != RoleAdmin && existingTx.UserID != userID then
        .error .forbidden
      else .ok ()

/-- The `filepath.Ext`: the suffix of the final path element from its last
dot; empty when the final element has no dot. -/
def goExt (path : String) : String :=
  let comp := path.data.reverse.takeWhile fun c => c ≠ '/'
  let pre := comp.takeWhile fun c => c ≠ '.'
  if pre.length = comp.length then "" else String.mk ('.' :: pre.reverse)

/-- The `filepath.Base`: the final path element ("." for the empty path, "/"
for an all-slash path, trailing slashes removed). -/
def goBase (path : String) : String :=
  if path == "" then "."
  else
    let rev := path.data.reverse.dropWhile fun c => c = '/'
    if rev = [] then "/"
    else String.mk ((rev.takeWhile fun c => c ≠ '/').reverse)

/-- The `strings.ToLower` (ASCII case mapping; the allowed-extension keys are
all ASCII). -/
def goToLower (s : String) : String := String.mk (s.data.map Char.toLower)

/-- The `const MaxFileSize = 5 * 1024 * 1024` (bytes). -/
def MaxFileSize : Nat := 5 * 1024 * 1024

/-- The allowed receipt extensions
(`map[string]bool{".jpg": true, ".jpeg": true, ".png": true, ".pdf": true}`). -/
def allowedExts : List String := [".jpg", ".jpeg", ".png", ".pdf"]

/-- The parts of `*multipart.FileHeader` the service reads. -/
structure FileHeader where
  Filename : String
  Size : Nat
  deriving Repr, DecidableEq

/-- Observable side effects of `UploadReceipt` on the file system and the
store, in program order. -/
inductive Effect
  | mkdirAll (path : String)
  | createFile (path : String)
  | copyTo (path : String)
  | updateReceiptPath (transactionID : Int) (path : String)
  deriving Repr, DecidableEq

/-- The `transactionService.UploadReceipt`: lookup, ownership (owner only —
no role parameter), size limit, extension whitelist; only then the
directory creation, the file write and the store update (`filepath.Join`
modelled as `/`-concatenation, `filepath.ToSlash` the identity).  The
result pairs the outcome with the trace of effects performed. -/
def UploadReceipt (db : DB) (transactionID userID : Int)
    (fileHeader : FileHeader) (baseUploadsDir : String) :
    Except ServiceError Transaction × List Effect :=
  match FindByID db transactionID with
  | none => (.error .transactionNotFound, [])
  | some transaction =>
      if transaction.UserID != userID then (.error .forbidden, [])
      else if MaxFileSize < fileHeader.Size then (.error .fileSizeExceeded, [])
      else if !(allowedExts.contains (goToLower (goExt fileHeader.Filename))) then
        (.error .invalidFileFormat, [])
      else
        let transactionUploadsDir :=
          baseUploadsDir ++ "/transactions/" ++ toString transactionID
        let fileName := goBase fileHeader.Filename
        let filePath := transactionUploadsDir ++ "/" ++ fileName
        (.ok { transaction with ReceiptPath := some filePath },
         [.mkdirAll transactionUploadsDir, .createFile filePath,
          .copyTo filePath, .updateReceiptPath transactionID filePath])

/-- The `transactionService.GetReceiptPath`: lookup, role-or-owner check,
then the stored path (with its base name) unless absent or empty. -/
def GetReceiptPath (db : DB) (transactionID userID : Int)
    (userRole : String) : Except ServiceError (String × String) :=
  match FindByID db transactionID with
  | none => .error .transactionNotFound
  | some transaction =>
      if userRole != RoleAdmin && transaction.UserID != userID then
        .error .forbidden
      else
        match transaction.ReceiptPath with
        | none => .error .receiptMissing
        | some p => if p == "" then .error .receiptMissing else .ok (p, goBase p)

/-! ## Tabular exporter -/

/-- The `unicode.IsSpace` (the Unicode White_Space code points). -/
def goIsSpace (c : Char) : Bool :=
  c = ' ' || c = '\t' || c = '\n' || c = Char.ofNat 11 || c = Char.ofNat 12 ||
  c = '\r' || c = Char.ofNat 0x85 || c = Char.ofNat 0xA0 ||
  c = Char.ofNat 0x1680 ||
  (Char.ofNat 0x2000 ≤ c && c ≤ Char.ofNat 0x200A) ||
  c = Char.ofNat 0x2028 || c = Char.ofNat 0x2029 || c = Char.ofNat 0x202F ||
  c = Char.ofNat 0x205F || c = Char.ofNat 0x3000

/-- The `encoding/csv` `fieldNeedsQuotes` with the default comma and
`UseCRLF = false`. -/
def fieldNeedsQuotes (field : String) : Bool :=
  if field == "" then false
  else if field == "\\." then true
  else if field.contains ',' || field.contains '"' || field.contains '\r'
      || field.contains '\n' then true
  else goIsSpace field.front

/-- Body of a quoted CSV field: `"` doubled, everything else verbatim
(`UseCRLF = false`). -/
def escapeQuoted (field : String) : String :=
  field.data.foldl
    (fun acc c => acc ++ (if c = '"' then "\"\"" else String.singleton c)) ""

/-- One CSV field as written. -/
def writeField (field : String) : String :=
  if fieldNeedsQuotes field then "\"" ++ escapeQuoted field ++ "\"" else field

/-- One CSV record: comma-separated fields and the `\n` terminator. -/
def writeRecord (fields : List String) : String :=
  String.intercalate (",") (fields.map writeField) ++ "\n"

/-- Zero-pad to two digits (Go time layout `04`). -/
def pad2 (n : Nat) : String := if n < 10 then "0" ++ toString n else toString n

/-- Zero-pad to four digits (Go time layout `2006`). -/
def pad4 (n : Nat) : String :=
  if n < 10 then "000" ++ toString n
  else if n < 100 then "00" ++ toString n
  else if n < 1000 then "0" ++ toString n
  else toString n

/-- The `Z07:00` part of the RFC-3339 layout. -/
def formatOffset (offsetMinutes : Int) : String :=
  if offsetMinutes = 0 then "Z"
  else (if offsetMinutes < 0 then "-" else "+")
    ++ pad2 (offsetMinutes.natAbs / 60) ++ ":" ++ pad2 (offsetMinutes.natAbs % 60)

/-- The `t.Format(time.RFC3339)`: layout `2006-01-02T15:04:05Z07:00`. -/
def formatRFC3339 (d : DateTime) : String :=
  pad4 d.year ++ "-" ++ pad2 d.month ++ "-" ++ pad2 d.day ++ "T"
    ++ pad2 d.hour ++ ":" ++ pad2 d.minute ++ ":" ++ pad2 d.second
    ++ formatOffset d.offsetMinutes

/-- The fixed CSV header of `ExportTransactionsCSVAdmin`. -/
def headerFields : List String :=
  ["ID", "UserID", "Amount", "Type", "Category", "Description",
   "TransactionDate", "CreatedAt", "ReceiptPath"]

/-- One CSV data row: id, user id, amount in minor units, type, category,
description (empty when absent), RFC-3339 dates, receipt path (empty when
absent). -/
def transactionRow (t : Transaction) : List String :=
  [toString t.ID, toString t.UserID, toString t.Amount, t.Type', t.Category,
   t.Description.getD (""), formatRFC3339 t.TransactionDate,
   formatRFC3339 t.CreatedAt, t.ReceiptPath.getD ("")]

/-- The buffer built by `ExportTransactionsCSVAdmin` after the fetch: the
header record, then one record per transaction appended in loop order. -/
def writeTransactionsCSV (transactions : List Transaction) : String :=
  transactions.foldl (fun buffer t => buffer ++ writeRecord (transactionRow t))
    (writeRecord headerFields)

/-- The `transactionService.ExportTransactionsCSVAdmin`: fetch with `FindAll`,
serialize. -/
def ExportTransactionsCSVAdmin (db : DB) (F : AdminTransactionFilters) : String :=
  writeTransactionsCSV (FindAll db F)

/-! ## Helpers used in statements and proofs -/

/-- Sum of `f` over a list. -/
def sumBy (l : List α) (f : α → Int) : Int := (l.map f).sum

/-- Concatenation of a list of strings. -/
def concatAll : List String → String
  | [] => ""
  | s :: rest => s ++ concatAll rest

/-! ## Concrete fixtures (for witnesses and counterexamples) -/

/-- Timestamp 2024-01-05 10:30:00. -/
def dtJan5 : DateTime := ⟨2024, 1, 5, 10, 30, 0, 0, 0⟩

/-- Timestamp 2024-01-10 12:00:00. -/
def dtJan10 : DateTime := ⟨2024, 1, 10, 12, 0, 0, 0, 0⟩

/-- Expense of user 1: 1000 minor units, category "food". -/
def txFood : Transaction :=
  ⟨1, 1, 1000, "expense", "food", none, dtJan5, none, dtJan5, dtJan5⟩

/-- Income of user 1: 5000 minor units, category "salary". -/
def txSalary : Transaction :=
  ⟨2, 1, 5000, "income", "salary", none, dtJan10, none, dtJan10, dtJan10⟩

/-- Expense of user 2: 700 minor units, category "transport". -/
def txBus : Transaction :=
  ⟨3, 2, 700, "expense", "transport", some ("bus"), dtJan5, some ("uploads/r.jpg"),
   dtJan5, dtJan5⟩

/-- A sample database: three transactions, two users. -/
def dbSample : DB :=
  ⟨[txFood, txSalary, txBus], [⟨1, "111"⟩, ⟨2, "222"⟩]⟩

/-- The empty admin filter specification. -/
def noFilters : AdminTransactionFilters := {}

/-- Admin filters constraining type to income. -/
def incomeFilters : AdminTransactionFilters := { Type' := some TransactionTypeIncome }

/-- Admin filters with a type value that is neither income nor expense. -/
def typeXyzFilters : AdminTransactionFilters := { Type' := some ("xyz") }

/-- Admin filters: user 1, category "food". -/
def userFilters1 : AdminTransactionFilters :=
  { UserID := some 1, Category := some ("food") }

/-- Admin filters with the same shape as `userFilters1` but different
values. -/
def userFilters2 : AdminTransactionFilters :=
  { UserID := some 7, Category := some ("fuel") }

/-- Midnight of 2024-01-05. -/
def dMid : DateTime := ⟨2024, 1, 5, 0, 0, 0, 0, 0⟩

/-- User filters carrying only the start boundary 2024-01-05 00:00:00. -/
def fSingleDay : UserTransactionFilters := { StartDate := some dMid }

/-- The empty partial update. -/
def reqNone : UpdateTransactionRequest := {}

/-- A small well-formed receipt file. -/
def fhSmallJpg : FileHeader := ⟨"receipt.jpg", 100⟩

/-- A receipt file one byte over the size limit. -/
def fhBigJpg : FileHeader := ⟨"receipt.jpg", MaxFileSize + 1⟩

/-- A receipt file with a disallowed extension. -/
def fhExe : FileHeader := ⟨"receipt.exe", 100⟩

/-! ## Lemmas: sums, grouping, and the aggregation engine -/

theorem sumBy_cons (x : α) (l : List α) (f : α → Int) :
    sumBy (x :: l) f = f x + sumBy l f := by
  simp [sumBy]

theorem sumBy_append (l₁ l₂ : List α) (f : α → Int) :
    sumBy (l₁ ++ l₂) f = sumBy l₁ f + sumBy l₂ f := by
  simp [sumBy]

theorem sumBy_congr {l : List α} {f g : α → Int} (h : ∀ x ∈ l, f x = g x) :
    sumBy l f = sumBy l g := by
  unfold sumBy
  rw [List.map_congr_left h]

theorem sumBy_filter (p : α → Bool) (l : List α) (f : α → Int) :
    sumBy (l.filter p) f = sumBy l fun x => if p x then f x else 0 := by
  induction l with
  | nil => rfl
  | cons x l ih =>
      by_cases h : p x <;>
        simp [List.filter_cons, h, sumBy_cons, ih]

theorem sumBy_bumpCategory (acc : List (String × Int)) (c : String) (a : Int) :
    sumBy (bumpCategory acc c a) Prod.snd = sumBy acc Prod.snd + a := by
  induction acc with
  | nil => simp [bumpCategory, sumBy]
  | cons p rest ih =>
      obtain ⟨c', s⟩ := p
      by_cases h : (c' == c) = true <;>
        simp [bumpCategory, h, sumBy_cons, ih] <;> ring

theorem sumBy_groupFold (rows : List JoinRow) (acc : List (String × Int)) :
    sumBy (rows.foldl (fun acc r => bumpCategory acc r.tx.Category r.tx.Amount) acc)
        Prod.snd
      = sumBy acc Prod.snd + sumBy rows (fun r => r.tx.Amount) := by
  induction rows generalizing acc with
  | nil => simp [sumBy]
  | cons r rows ih =>
      simp only [List.foldl_cons, ih, sumBy_bumpCategory, sumBy_cons]
      ring

theorem sumBy_groupByCategory (rows : List JoinRow) :
    sumBy (groupByCategory rows) Prod.snd = sumBy rows fun r => r.tx.Amount := by
  simpa [sumBy] using sumBy_groupFold rows []

/-- C1: for every database state and every admin filter specification,
the balance returned by `GetAggregatedStats` equals total income minus
total expenses — it is recomputed from the two totals, not independently
stored. -/
theorem getAggregatedStats_balance (db : DB) (F : AdminTransactionFilters) :
    (GetAggregatedStats db F).Balance
      = (GetAggregatedStats db F).TotalIncome - (GetAggregatedStats db F).TotalExpenses := rfl

theorem stats_TotalIncome (db : DB) (F : AdminTransactionFilters) :
    (GetAggregatedStats db F).TotalIncome = totalIncomeOf (statsRows db F) := rfl

theorem stats_TotalExpenses (db : DB) (F : AdminTransactionFilters) :
    (GetAggregatedStats db F).TotalExpenses = totalExpensesOf (statsRows db F) := rfl

theorem stats_ByCategoryIncome (db : DB) (F : AdminTransactionFilters) :
    (GetAggregatedStats db F).ByCategoryIncome
      = if incomeGuard F then
          groupByCategory
            (if F.Type' = none then
              (statsRows db F).filter fun r => r.tx.Type' == TransactionTypeIncome
             else statsRows db F)
        else [] := rfl

theorem stats_ByCategoryExpense (db : DB) (F : AdminTransactionFilters) :
    (GetAggregatedStats db F).ByCategoryExpense
      = if expenseGuard F then
          groupByCategory
            (if F.Type' = none then
              (statsRows db F).filter fun r => r.tx.Type' == TransactionTypeExpense
             else statsRows db F)
        else [] := rfl

theorem stats_ByUserSpending (db : DB) (F : AdminTransactionFilters) :
    (GetAggregatedStats db F).ByUserSpending
      = buildUserSpending (userGroups (statsRows db F)) := rfl

/-- C2: with the type filter set to income, the expense category grouping
is the empty mapping and the income grouping runs over the filtered
subset as-is; symmetrically for expense; with no type filter, each
grouping runs over the filtered subset further restricted to its own
type (the restriction layered on top of the caller's constraints). -/
theorem byCategory_type_policy (db : DB) (F : AdminTransactionFilters) :
    (F.Type' = some TransactionTypeIncome →
      (GetAggregatedStats db F).ByCategoryExpense = [] ∧
      (GetAggregatedStats db F).ByCategoryIncome = groupByCategory (statsRows db F)) ∧
    (F.Type' = some TransactionTypeExpense →
      (GetAggregatedStats db F).ByCategoryIncome = [] ∧
      (GetAggregatedStats db F).ByCategoryExpense = groupByCategory (statsRows db F)) ∧
    (F.Type' = none →
      (GetAggregatedStats db F).ByCategoryIncome
        = groupByCategory
            ((statsRows db F).filter fun r => r.tx.Type' == TransactionTypeIncome) ∧
      (GetAggregatedStats db F).ByCategoryExpense
        = groupByCategory
            ((statsRows db F).filter fun r => r.tx.Type' == TransactionTypeExpense)) := by
  refine ⟨fun h => ?_, fun h => ?_, fun h => ?_⟩ <;>
    rw [stats_ByCategoryIncome, stats_ByCategoryExpense] <;>
    simp [incomeGuard, expenseGuard, h, TransactionTypeIncome, TransactionTypeExpense]

/-- C2 witness: on the sample database with the income-constrained
filter, the expense grouping is empty and the income grouping covers the
filtered subset. -/
theorem byCategory_type_policy_witness :
    incomeFilters.Type' = some TransactionTypeIncome ∧
    ((GetAggregatedStats dbSample incomeFilters).ByCategoryExpense = [] ∧
     (GetAggregatedStats dbSample incomeFilters).ByCategoryIncome
       = groupByCategory (statsRows dbSample incomeFilters)) :=
  ⟨rfl, (byCategory_type_policy dbSample incomeFilters).1 rfl⟩

theorem type_of_mem_statsRows {db : DB} {F : AdminTransactionFilters} {s : String}
    (hs : F.Type' = some s) (hne : ¬(s = "")) :
    ∀ r ∈ statsRows db F, r.tx.Type' = s := by
  intro r hr
  have hm := (List.mem_filter.mp hr).2
  simp [txMatchesAdmin, hs] at hm
  tauto

/-- C5: when the filter has no type constraint or constrains type to
income, the values of the income category grouping sum to the income
total; symmetrically for expense. -/
theorem byCategory_sums_match_totals (db : DB) (F : AdminTransactionFilters) :
    ((F.Type' = none ∨ F.Type' = some TransactionTypeIncome) →
      sumBy (GetAggregatedStats db F).ByCategoryIncome Prod.snd
        = (GetAggregatedStats db F).TotalIncome) ∧
    ((F.Type' = none ∨ F.Type' = some TransactionTypeExpense) →
      sumBy (GetAggregatedStats db F).ByCategoryExpense Prod.snd
        = (GetAggregatedStats db F).TotalExpenses) := by
  constructor <;> rintro (h | h)
  · rw [stats_ByCategoryIncome, stats_TotalIncome]
    simp only [incomeGuard, h, if_pos, if_true]
    rw [sumBy_groupByCategory, sumBy_filter]
    rfl
  · rw [stats_ByCategoryIncome, stats_TotalIncome]
    have hg : incomeGuard F = true := by simp [incomeGuard, h]
    simp only [hg, h, if_true, reduceCtorEq, if_false]
    rw [sumBy_groupByCategory]
    refine Eq.symm (sumBy_congr fun r hr => ?_)
    have ht := type_of_mem_statsRows h (by decide) r hr
    simp [ht, TransactionTypeIncome]
  · rw [stats_ByCategoryExpense, stats_TotalExpenses]
    simp only [expenseGuard, h, if_pos, if_true]
    rw [sumBy_groupByCategory, sumBy_filter]
    rfl
  · rw [stats_ByCategoryExpense, stats_TotalExpenses]
    have hg : expenseGuard F = true := by simp [expenseGuard, h]
    simp only [hg, h, if_true, reduceCtorEq, if_false]
    rw [sumBy_groupByCategory]
    refine Eq.symm (sumBy_congr fun r hr => ?_)
    have ht := type_of_mem_statsRows h (by decide) r hr
    simp [ht, TransactionTypeExpense]

/-- C5 witness: on the sample database with the income-constrained
filter, the income grouping sums to the income total. -/
theorem byCategory_sums_match_totals_witness :
    (incomeFilters.Type' = none ∨ incomeFilters.Type' = some TransactionTypeIncome) ∧
    sumBy (GetAggregatedStats dbSample incomeFilters).ByCategoryIncome Prod.snd
      = (GetAggregatedStats dbSample incomeFilters).TotalIncome :=
  ⟨Or.inr rfl, (byCategory_sums_match_totals dbSample incomeFilters).1 (Or.inr rfl)⟩

theorem sumBy_bumpUser_spent (acc : List UserStat) (r : JoinRow) :
    sumBy (bumpUser acc r) (fun us => us.TotalSpent)
      = sumBy acc (fun us => us.TotalSpent) + expenseAmt r := by
  induction acc with
  | nil => simp [bumpUser, sumBy]
  | cons a rest ih =>
      by_cases h : (a.UserID == r.tx.UserID && a.UserPhone == r.phone) = true <;>
        simp [bumpUser, h, sumBy_cons, ih] <;> ring

theorem sumBy_bumpUser_income (acc : List UserStat) (r : JoinRow) :
    sumBy (bumpUser acc r) (fun us => us.TotalIncome)
      = sumBy acc (fun us => us.TotalIncome) + incomeAmt r := by
  induction acc with
  | nil => simp [bumpUser, sumBy]
  | cons a rest ih =>
      by_cases h : (a.UserID == r.tx.UserID && a.UserPhone == r.phone) = true <;>
        simp [bumpUser, h, sumBy_cons, ih] <;> ring

theorem sumBy_foldl_bumpUser_spent (rows : List JoinRow) (acc : List UserStat) :
    sumBy (rows.foldl bumpUser acc) (fun us => us.TotalSpent)
      = sumBy acc (fun us => us.TotalSpent) + sumBy rows expenseAmt := by
  induction rows generalizing acc with
  | nil => simp [sumBy]
  | cons r rows ih =>
      simp only [List.foldl_cons, ih, sumBy_bumpUser_spent, sumBy_cons]
      ring

theorem sumBy_foldl_bumpUser_income (rows : List JoinRow) (acc : List UserStat) :
    sumBy (rows.foldl bumpUser acc) (fun us => us.TotalIncome)
      = sumBy acc (fun us => us.TotalIncome) + sumBy rows incomeAmt := by
  induction rows generalizing acc with
  | nil => simp [sumBy]
  | cons r rows ih =>
      simp only [List.foldl_cons, ih, sumBy_bumpUser_income, sumBy_cons]
      ring

theorem sumBy_userGroups_spent (rows : List JoinRow) :
    sumBy (userGroups rows) (fun us => us.TotalSpent) = sumBy rows expenseAmt := by
  simpa [sumBy] using sumBy_foldl_bumpUser_spent rows []

theorem sumBy_userGroups_income (rows : List JoinRow) :
    sumBy (userGroups rows) (fun us => us.TotalIncome) = sumBy rows incomeAmt := by
  simpa [sumBy] using sumBy_foldl_bumpUser_income rows []

theorem mem_bumpUser {us : UserStat} {acc : List UserStat} {r : JoinRow}
    (h : us ∈ bumpUser acc r) :
    (∃ us' ∈ acc, us.UserID = us'.UserID ∧ us.UserPhone = us'.UserPhone) ∨
      (us.UserID = r.tx.UserID ∧ us.UserPhone = r.phone) := by
  induction acc with
  | nil =>
      simp [bumpUser] at h
      simp [h]
  | cons a rest ih =>
      by_cases hk : (a.UserID == r.tx.UserID && a.UserPhone == r.phone) = true
      · rw [show bumpUser (a :: rest) r
            = { a with
                TotalSpent := a.TotalSpent + expenseAmt r
                TotalIncome := a.TotalIncome + incomeAmt r
                TransactionCount := a.TransactionCount + 1 } :: rest from by
              simp [bumpUser, hk]] at h
        rcases List.mem_cons.mp h with h | h
        · exact Or.inl ⟨a, by simp, by simp [h]⟩
        · exact Or.inl ⟨us, List.mem_cons_of_mem _ h, rfl, rfl⟩
      · rw [show bumpUser (a :: rest) r = a :: bumpUser rest r from by
              simp [bumpUser, hk]] at h
        rcases List.mem_cons.mp h with h | h
        · exact Or.inl ⟨a, by simp, by simp [h]⟩
        · rcases ih h with ⟨us', hus', h1, h2⟩ | h'
          · exact Or.inl ⟨us', List.mem_cons_of_mem _ hus', h1, h2⟩
          · exact Or.inr h'

theorem pairwise_bumpUser {acc : List UserStat} (r : JoinRow)
    (h : acc.Pairwise fun a b => ¬(a.UserID = b.UserID ∧ a.UserPhone = b.UserPhone)) :
    (bumpUser acc r).Pairwise
      fun a b => ¬(a.UserID = b.UserID ∧ a.UserPhone = b.UserPhone) := by
  induction acc with
  | nil => simp [bumpUser]
  | cons a rest ih =>
      rw [List.pairwise_cons] at h
      obtain ⟨ha, hrest⟩ := h
      by_cases hk : (a.UserID == r.tx.UserID && a.UserPhone == r.phone) = true
      · rw [show bumpUser (a :: rest) r
            = { a with
                TotalSpent := a.TotalSpent + expenseAmt r
                TotalIncome := a.TotalIncome + incomeAmt r
                TransactionCount := a.TransactionCount + 1 } :: rest from by
              simp [bumpUser, hk]]
        rw [List.pairwise_cons]
        exact ⟨fun b hb hc => ha b hb (by simpa using hc), hrest⟩
      · rw [show bumpUser (a :: rest) r = a :: bumpUser rest r from by
              simp [bumpUser, hk]]
        rw [List.pairwise_cons]
        refine ⟨fun b hb hc => ?_, ih hrest⟩
        rcases mem_bumpUser hb with ⟨us', hus', h1, h2⟩ | hkey
        · exact ha us' hus' ⟨hc.1.trans h1, hc.2.trans h2⟩
        · simp only [Bool.and_eq_true, beq_iff_eq] at hk
          exact hk ⟨hc.1.trans hkey.1, hc.2.trans hkey.2⟩

theorem mem_foldl_bumpUser {us : UserStat} :
    ∀ {rows : List JoinRow} {acc : List UserStat},
      us ∈ rows.foldl bumpUser acc →
      (∃ us' ∈ acc, us.UserID = us'.UserID ∧ us.UserPhone = us'.UserPhone) ∨
        (∃ r ∈ rows, us.UserID = r.tx.UserID ∧ us.UserPhone = r.phone) := by
  intro rows
  induction rows with
  | nil => intro acc h; exact Or.inl ⟨us, by simpa using h, rfl, rfl⟩
  | cons r rows ih =>
      intro acc h
      rcases ih (by simpa [List.foldl_cons] using h) with ⟨us', hus', h1, h2⟩ | ⟨r', hr', hk⟩
      · rcases mem_bumpUser hus' with ⟨us'', hus'', g1, g2⟩ | hkey
        · exact Or.inl ⟨us'', hus'', h1.trans g1, h2.trans g2⟩
        · exact Or.inr ⟨r, by simp, h1.trans hkey.1, h2.trans hkey.2⟩
      · exact Or.inr ⟨r', List.mem_cons_of_mem _ hr', hk⟩

theorem mem_userGroups {rows : List JoinRow} {us : UserStat}
    (h : us ∈ userGroups rows) :
    ∃ r ∈ rows, us.UserID = r.tx.UserID ∧ us.UserPhone = r.phone := by
  rcases mem_foldl_bumpUser h with ⟨us', hus', _⟩ | h'
  · simp at hus'
  · exact h'

theorem pairwise_userGroups (rows : List JoinRow) :
    (userGroups rows).Pairwise
      fun a b => ¬(a.UserID = b.UserID ∧ a.UserPhone = b.UserPhone) := by
  have key : ∀ (l : List JoinRow) (acc : List UserStat),
      acc.Pairwise (fun a b => ¬(a.UserID = b.UserID ∧ a.UserPhone = b.UserPhone)) →
      (l.foldl bumpUser acc).Pairwise
        (fun a b => ¬(a.UserID = b.UserID ∧ a.UserPhone = b.UserPhone)) := by
    intro l
    induction l with
    | nil => intro acc h; simpa using h
    | cons r l ih => intro acc h; exact ih _ (pairwise_bumpUser r h)
  exact key rows [] (by simp)

theorem exists_user_of_mem_joinRows {db : DB} {r : JoinRow} (h : r ∈ joinRows db) :
    ∃ u ∈ db.users, u.id = r.tx.UserID ∧ u.phone = r.phone := by
  simp only [joinRows, List.mem_flatMap, List.mem_map, List.mem_filter,
    beq_iff_eq] at h
  obtain ⟨t, ht, u, ⟨hu, hid⟩, rfl⟩ := h
  exact ⟨u, hu, by simp [hid], rfl⟩

theorem phone_functional {db : DB} (hnd : (db.users.map UserRow.id).Nodup) :
    ∀ r₁ ∈ joinRows db, ∀ r₂ ∈ joinRows db,
      r₁.tx.UserID = r₂.tx.UserID → r₁.phone = r₂.phone := by
  intro r₁ h₁ r₂ h₂ heq
  obtain ⟨u₁, hu₁, hid₁, hp₁⟩ := exists_user_of_mem_joinRows h₁
  obtain ⟨u₂, hu₂, hid₂, hp₂⟩ := exists_user_of_mem_joinRows h₂
  have : u₁ = u₂ :=
    List.inj_on_of_nodup_map hnd hu₁ hu₂ (by rw [hid₁, hid₂, heq])
  rw [← hp₁, ← hp₂, this]

theorem uid_pairwise_userGroups (db : DB) (F : AdminTransactionFilters)
    (hnd : (db.users.map UserRow.id).Nodup) :
    (userGroups (statsRows db F)).Pairwise fun a b => a.UserID ≠ b.UserID := by
  refine (pairwise_userGroups (statsRows db F)).imp_of_mem ?_
  intro a b ha hb hR huid
  obtain ⟨ra, hra, hka1, hka2⟩ := mem_userGroups ha
  obtain ⟨rb, hrb, hkb1, hkb2⟩ := mem_userGroups hb
  have hphone : ra.phone = rb.phone :=
    phone_functional hnd ra (List.mem_filter.mp hra).1 rb (List.mem_filter.mp hrb).1
      (by rw [← hka1, ← hkb1, huid])
  exact hR ⟨huid, by rw [hka2, hkb2, hphone]⟩

theorem mapInsert_of_notMem {m : List (Int × UserStat)} {k : Int} (v : UserStat)
    (h : k ∉ m.map Prod.fst) :
    mapInsert m k v = m ++ [(k, v)] := by
  induction m with
  | nil => rfl
  | cons p rest ih =>
      obtain ⟨k', v'⟩ := p
      simp only [List.map_cons, List.mem_cons, not_or] at h
      simp only [mapInsert, beq_iff_eq]
      rw [if_neg (by simpa using fun hc => h.1 hc.symm)]
      simp [ih h.2]

theorem sumBy_foldl_mapInsert (g : Int × UserStat → Int) :
    ∀ (groups : List UserStat) (m : List (Int × UserStat)),
      (∀ us ∈ groups, us.UserID ∉ m.map Prod.fst) →
      groups.Pairwise (fun a b => a.UserID ≠ b.UserID) →
      sumBy (groups.foldl (fun m us => mapInsert m us.UserID us) m) g
        = sumBy m g + sumBy groups (fun us => g (us.UserID, us)) := by
  intro groups
  induction groups with
  | nil => intro m _ _; simp [sumBy]
  | cons us rest ih =>
      intro m hdisj hpair
      rw [List.pairwise_cons] at hpair
      rw [List.foldl_cons, mapInsert_of_notMem us (hdisj us (by simp))]
      rw [ih (m ++ [(us.UserID, us)]) ?_ hpair.2]
      · rw [sumBy_append, sumBy_cons]
        simp [sumBy]
        ring
      · intro b hb
        simp only [List.map_append, List.mem_append, not_or]
        exact ⟨hdisj b (List.mem_cons_of_mem _ hb),
          by simpa using fun hc => hpair.1 b hb hc.symm⟩

theorem sumBy_buildUserSpending {groups : List UserStat} (g : Int × UserStat → Int)
    (hpair : groups.Pairwise fun a b => a.UserID ≠ b.UserID) :
    sumBy (buildUserSpending groups) g = sumBy groups fun us => g (us.UserID, us) := by
  simpa [sumBy] using sumBy_foldl_mapInsert g groups [] (by simp) hpair

theorem mem_mapInsert {p : Int × UserStat} {m : List (Int × UserStat)}
    {k : Int} {v : UserStat} (h : p ∈ mapInsert m k v) :
    p ∈ m ∨ p.1 = k := by
  induction m with
  | nil => simp [mapInsert] at h; simp [h]
  | cons q rest ih =>
      obtain ⟨k', v'⟩ := q
      by_cases hk : (k' == k) = true
      · rw [show mapInsert ((k', v') :: rest) k v = (k', v) :: rest from by
              simp [mapInsert, hk]] at h
        rcases List.mem_cons.mp h with h | h
        · exact Or.inr (by simp [h]; exact beq_iff_eq.mp hk)
        · exact Or.inl (List.mem_cons_of_mem _ h)
      · rw [show mapInsert ((k', v') :: rest) k v = (k', v') :: mapInsert rest k v from by
              simp [mapInsert, hk]] at h
        rcases List.mem_cons.mp h with h | h
        · exact Or.inl (by simp [h])
        · rcases ih h with h' | h'
          · exact Or.inl (List.mem_cons_of_mem _ h')
          · exact Or.inr h'

theorem mem_foldl_mapInsert {p : Int × UserStat} :
    ∀ {groups : List UserStat} {m : List (Int × UserStat)},
      p ∈ groups.foldl (fun m us => mapInsert m us.UserID us) m →
      p ∈ m ∨ ∃ us ∈ groups, us.UserID = p.1 := by
  intro groups
  induction groups with
  | nil => intro m h; exact Or.inl (by simpa using h)
  | cons us rest ih =>
      intro m h
      rcases ih (by simpa [List.foldl_cons] using h) with h' | ⟨us', hus', hk⟩
      · rcases mem_mapInsert h' with h'' | h''
        · exact Or.inl h''
        · exact Or.inr ⟨us, by simp, h''.symm⟩
      · exact Or.inr ⟨us', List.mem_cons_of_mem _ hus', hk⟩

theorem mem_buildUserSpending {groups : List UserStat} {p : Int × UserStat}
    (h : p ∈ buildUserSpending groups) :
    ∃ us ∈ groups, us.UserID = p.1 := by
  rcases mem_foldl_mapInsert h with h' | h'
  · simp at h'
  · exact h'

/-- C6: with distinct user ids in the users table, the per-owner
breakdown (computed over the same filtered subset as the totals, without
the category-breakdown type override) has its total-spent entries summing
to the overall expense total and its total-income entries summing to the
overall income total, and every owner appearing in it has at least one
matching row. -/
theorem byUserSpending_consistent (db : DB) (F : AdminTransactionFilters)
    (hnd : (db.users.map UserRow.id).Nodup) :
    sumBy (GetAggregatedStats db F).ByUserSpending (fun p => p.2.TotalSpent)
        = (GetAggregatedStats db F).TotalExpenses ∧
    sumBy (GetAggregatedStats db F).ByUserSpending (fun p => p.2.TotalIncome)
        = (GetAggregatedStats db F).TotalIncome ∧
    ∀ p ∈ (GetAggregatedStats db F).ByUserSpending,
      ∃ r ∈ statsRows db F, r.tx.UserID = p.1 := by
  have hpair := uid_pairwise_userGroups db F hnd
  rw [stats_ByUserSpending, stats_TotalExpenses, stats_TotalIncome]
  refine ⟨?_, ?_, ?_⟩
  · rw [sumBy_buildUserSpending _ hpair, sumBy_userGroups_spent]
    rfl
  · rw [sumBy_buildUserSpending _ hpair, sumBy_userGroups_income]
    rfl
  · intro p hp
    obtain ⟨us, hus, huid⟩ := mem_buildUserSpending hp
    obtain ⟨r, hr, hk, -⟩ := mem_userGroups hus
    exact ⟨r, hr, by rw [← hk, huid]⟩

/-- C6 witness: on the sample database with the empty filter, the
per-owner totals sum to the overall totals. -/
theorem byUserSpending_consistent_witness :
    (dbSample.users.map UserRow.id).Nodup ∧
    sumBy (GetAggregatedStats dbSample noFilters).ByUserSpending
        (fun p => p.2.TotalSpent)
      = (GetAggregatedStats dbSample noFilters).TotalExpenses :=
  ⟨by decide, (byUserSpending_consistent dbSample noFilters (by decide)).1⟩

/-! ## Lemmas: the predicate compiler's query texts -/

theorem adminConditions_factor (F : AdminTransactionFilters) :
    (adminConditions F).1 = (clausesOfPattern (filterPattern F)).1 ∧
    (adminConditions F).2.2 = (clausesOfPattern (filterPattern F)).2 := by
  rcases F with ⟨uid, sd, ed, cat, ty⟩
  cases uid <;> cases sd <;> cases ed <;> cases cat <;> cases ty <;>
    simp [adminConditions, clausesOfPattern, filterPattern, presentStr] <;>
    split_ifs <;> simp_all

theorem clausesOfPattern_length :
    ∀ p, (clausesOfPattern p).1.length = patternCount p := by decide

theorem typeNone_iff_of_guards {F₁ F₂ : AdminTransactionFilters}
    (hp : filterPattern F₁ = filterPattern F₂)
    (hig : incomeGuard F₁ = incomeGuard F₂) :
    F₁.Type' = none ↔ F₂.Type' = none := by
  have hps : presentStr F₁.Type' = presentStr F₂.Type' := by
    have := congrArg (fun p => p.2.1) hp
    simpa [filterPattern] using this
  rcases h₁ : F₁.Type' with - | s₁ <;> rcases h₂ : F₂.Type' with - | s₂ <;>
    simp_all [incomeGuard, presentStr, TransactionTypeIncome]

/-- C7 counterexample: two filter specifications with the same fields
present and the type value equally non-empty (`income` vs `xyz`) for
which `GetAggregatedStats` builds different query-string lists (the
income category query is issued for one and not the other), refuting the
claim as stated. -/
theorem statsQueries_not_pattern_determined :
    filterPattern incomeFilters = filterPattern typeXyzFilters ∧
    statsQueries incomeFilters ≠ statsQueries typeXyzFilters := by
  constructor
  · rfl
  · intro h
    have := congrArg List.length h
    simp [statsQueries, incomeGuard, expenseGuard, incomeFilters, typeXyzFilters,
      TransactionTypeIncome, TransactionTypeExpense] at this

/-- C7 (amended): for two filter specifications with the same presence
pattern (and type/category equally empty or non-empty) whose type values
also agree on the income/expense guards, `FindAll` and every query of
`GetAggregatedStats` build character-for-character identical query
strings; and the compiled conjunction has exactly one clause per present
field. -/
theorem queries_pattern_determined (F₁ F₂ : AdminTransactionFilters)
    (hp : filterPattern F₁ = filterPattern F₂)
    (hig : incomeGuard F₁ = incomeGuard F₂)
    (heg : expenseGuard F₁ = expenseGuard F₂) :
    findAllQuery F₁ = findAllQuery F₂ ∧
    statsQueries F₁ = statsQueries F₂ ∧
    (adminConditions F₁).1.length = patternCount (filterPattern F₁) := by
  have hc : (adminConditions F₁).1 = (adminConditions F₂).1 := by
    rw [(adminConditions_factor F₁).1, (adminConditions_factor F₂).1, hp]
  have hn : (adminConditions F₁).2.2 = (adminConditions F₂).2.2 := by
    rw [(adminConditions_factor F₁).2, (adminConditions_factor F₂).2, hp]
  have hw : statsWhereClause F₁ = statsWhereClause F₂ := by
    simp only [statsWhereClause, hc]
  have harg : statsArgCount F₁ = statsArgCount F₂ := hn
  have hiw : incomeCategoryWhereClause F₁ = incomeCategoryWhereClause F₂ := by
    unfold incomeCategoryWhereClause
    by_cases h₁ : F₁.Type' = none
    · rw [if_pos h₁, if_pos ((typeNone_iff_of_guards hp hig).mp h₁), hw, harg]
    · rw [if_neg h₁, if_neg fun hc' =>
        h₁ ((typeNone_iff_of_guards hp hig).mpr hc'), hw]
  have hew : expenseCategoryWhereClause F₁ = expenseCategoryWhereClause F₂ := by
    unfold expenseCategoryWhereClause
    by_cases h₁ : F₁.Type' = none
    · rw [if_pos h₁, if_pos ((typeNone_iff_of_guards hp hig).mp h₁), hw, harg]
    · rw [if_neg h₁, if_neg fun hc' =>
        h₁ ((typeNone_iff_of_guards hp hig).mpr hc'), hw]
  refine ⟨?_, ?_, ?_⟩
  · simp only [findAllQuery, hc]
  · simp only [statsQueries, sumQuery, userSpendingQuery, categoryIncomeQuery,
      categoryExpenseQuery, hw, hiw, hew, hig, heg]
  · rw [(adminConditions_factor F₁).1, clausesOfPattern_length]

/-- C7 witness: two same-shape filters with different bound values
(user 1 / "food" vs user 7 / "fuel") produce identical query texts. -/
theorem queries_pattern_determined_witness :
    (filterPattern userFilters1 = filterPattern userFilters2 ∧
     incomeGuard userFilters1 = incomeGuard userFilters2 ∧
     expenseGuard userFilters1 = expenseGuard userFilters2) ∧
    (findAllQuery userFilters1 = findAllQuery userFilters2 ∧
     statsQueries userFilters1 = statsQueries userFilters2 ∧
     (adminConditions userFilters1).1.length
       = patternCount (filterPattern userFilters1)) :=
  ⟨⟨rfl, rfl, rfl⟩, queries_pattern_determined userFilters1 userFilters2 rfl rfl rfl⟩

/-! ## Lemmas: date-range normalization -/

theorem startOfDay_of_midnight {D : DateTime} (hh : D.hour = 0) (hm : D.minute = 0)
    (hs : D.second = 0) (hn : D.nanosecond = 0) : startOfDay D = D := by
  rcases D with ⟨y, mo, dy, h, mi, s, ns, off⟩
  simp only at hh hm hs hn
  simp [startOfDay, hh, hm, hs, hn]

theorem isMidnightHMS_endOfDay (d : DateTime) : isMidnightHMS (endOfDay d) = false := by
  simp [isMidnightHMS, endOfDay]

/-- C3: a user filter carrying a single calendar day D (start boundary
at midnight, no end boundary) produces exactly the result set of the
explicit range from D 00:00:00 to D 23:59:59.999999999 — the normalizer
fills the missing end boundary with the last instant of day D — and any
end boundary with zero time-of-day is extended to the last instant of
its own day. -/
theorem single_day_filter_normalization (db : DB) (userID : Int)
    (f : UserTransactionFilters) (D : DateTime)
    (hst : f.StartDate = some D) (hh : D.hour = 0) (hm : D.minute = 0)
    (hs : D.second = 0) (hn : D.nanosecond = 0) (hend : f.EndDate = none) :
    (GetUserTransactions db userID f
        = GetUserTransactions db userID
            { f with StartDate := some D, EndDate := some (endOfDay D) } ∧
      (normalizeUserFilters f).EndDate = some (endOfDay D)) ∧
    (∀ (g : UserTransactionFilters) (ed : DateTime),
      g.EndDate = some ed → isMidnightHMS ed = true →
      (normalizeUserFilters g).EndDate = some (endOfDay ed)) := by
  have hmid : isMidnightHMS D = true := by simp [isMidnightHMS, hh, hm, hs]
  have hsod := startOfDay_of_midnight hh hm hs hn
  have hnorm₁ : normalizeUserFilters f
      = { f with StartDate := some D, EndDate := some (endOfDay D) } := by
    simp [normalizeUserFilters, hst, hend, hmid, hsod, isMidnightHMS_endOfDay]
  have hnorm₂ : normalizeUserFilters
        { f with StartDate := some D, EndDate := some (endOfDay D) }
      = { f with StartDate := some D, EndDate := some (endOfDay D) } := by
    simp [normalizeUserFilters, hmid, hsod, isMidnightHMS_endOfDay]
  refine ⟨⟨?_, ?_⟩, ?_⟩
  · unfold GetUserTransactions
    rw [hnorm₁, hnorm₂]
  · rw [hnorm₁]
  · intro g ed hged hmids
    unfold normalizeUserFilters
    cases hgs : g.StartDate with
    | none => simp [hged, hmids]
    | some sd =>
        by_cases hmid₂ : isMidnightHMS sd = true
        · simp [hged, hmid₂, hmids]
        · simp [hged, hmid₂, hmids]

/-- C3 witness: on the sample database, the single-day filter for
2024-01-05 behaves like the explicit whole-day range. -/
theorem single_day_filter_normalization_witness :
    (fSingleDay.StartDate = some dMid ∧ fSingleDay.EndDate = none) ∧
    (GetUserTransactions dbSample 1 fSingleDay
        = GetUserTransactions dbSample 1
            { fSingleDay with StartDate := some dMid, EndDate := some (endOfDay dMid) } ∧
      (normalizeUserFilters fSingleDay).EndDate = some (endOfDay dMid)) :=
  ⟨⟨rfl, rfl⟩,
    (single_day_filter_normalization dbSample 1 fSingleDay dMid rfl rfl rfl rfl rfl rfl).1⟩

/-! ## Access policy and error taxonomy -/

/-- C8: a missing id yields the not-found error before any ownership
consideration; a non-owner, non-admin caller on an existing record gets
the forbidden error; the two error kinds are distinct. -/
theorem getTransactionByID_errors (db : DB) (transactionID userID : Int)
    (userRole : String) :
    (FindByID db transactionID = none →
      GetTransactionByID db transactionID userID userRole
        = .error .transactionNotFound) ∧
    (∀ t, FindByID db transactionID = some t → userRole ≠ RoleAdmin →
      t.UserID ≠ userID →
      GetTransactionByID db transactionID userID userRole = .error .forbidden) ∧
    ServiceError.transactionNotFound ≠ ServiceError.forbidden := by
  refine ⟨fun h => ?_, fun t h hrole howner => ?_, by simp⟩
  · simp [GetTransactionByID, h]
  · simp [GetTransactionByID, h, bne_iff_ne, hrole, howner]

/-- C8 witness: on the sample database, a non-owner non-admin caller
gets forbidden for an existing record and not-found for a missing id. -/
theorem getTransactionByID_errors_witness :
    FindByID dbSample 3 = some txBus ∧
    GetTransactionByID dbSample 3 1 "user" = .error .forbidden ∧
    GetTransactionByID dbSample 99 1 "user" = .error .transactionNotFound :=
  ⟨by decide,
   (getTransactionByID_errors dbSample 3 1 "user").2.1 txBus (by decide)
     (by decide) (by decide),
   (getTransactionByID_errors dbSample 99 1 "user").1 (by decide)⟩

/-- C4 counterexample: caller 1 holds the administrator role, yet on
transaction 3 (owned by user 2) the update and the receipt upload are
forbidden — the role is not even an input of those two operations —
while the same caller's get-by-id succeeds via the admin bypass.  This
refutes the claim that every mutating operation admits administrators. -/
theorem admin_update_forbidden_counterexample :
    GetTransactionByID dbSample 3 1 RoleAdmin = .ok txBus ∧
    UpdateTransaction dbSample 3 1 reqNone dtJan10 = .error .forbidden ∧
    (UploadReceipt dbSample 3 1 fhSmallJpg ("uploads")).1 = .error .forbidden := by
  refine ⟨rfl, rfl, rfl⟩

/-- C4 (amended): for any existing record, get-by-id, delete and receipt
retrieval admit an administrator or the owner and are forbidden to
everyone else; update and receipt upload require the caller to be the
owner regardless of role (the role is not consulted), and are forbidden
to any non-owner. -/
theorem access_policy (db : DB) (transactionID userID : Int) (userRole : String)
    (t : Transaction) (req : UpdateTransactionRequest) (now : DateTime)
    (fh : FileHeader) (dir : String)
    (hfind : FindByID db transactionID = some t) :
    ((userRole = RoleAdmin ∨ t.UserID = userID) →
      GetTransactionByID db transactionID userID userRole = .ok t ∧
      DeleteTransaction db transactionID userID userRole = .ok () ∧
      GetReceiptPath db transactionID userID userRole ≠ .error .forbidden) ∧
    (userRole ≠ RoleAdmin → t.UserID ≠ userID →
      GetTransactionByID db transactionID userID userRole = .error .forbidden ∧
      DeleteTransaction db transactionID userID userRole = .error .forbidden ∧
      GetReceiptPath db transactionID userID userRole = .error .forbidden) ∧
    (t.UserID = userID →
      UpdateTransaction db transactionID userID req now
          = .ok (applyUpdates t req now) ∧
      (UploadReceipt db transactionID userID fh dir).1 ≠ .error .forbidden) ∧
    (t.UserID ≠ userID →
      UpdateTransaction db transactionID userID req now = .error .forbidden ∧
      (UploadReceipt db transactionID userID fh dir).1 = .error .forbidden) := by
  refine ⟨fun hok => ?_, fun hrole howner => ?_, fun hown => ?_, fun hnot => ?_⟩
  · have hcond : (userRole != RoleAdmin && t.UserID != userID) = false := by
      rcases hok with h | h <;> simp [h]
    refine ⟨?_, ?_, ?_⟩
    · simp [GetTransactionByID, hfind, hcond]
    · simp [DeleteTransaction, hfind, hcond]
    · simp only [GetReceiptPath, hfind, hcond, Bool.false_eq_true, if_false]
      cases t.ReceiptPath with
      | none => simp
      | some p => by_cases hp : (p == "") = true <;> simp [hp]
  · refine ⟨?_, ?_, ?_⟩ <;>
      simp [GetTransactionByID, DeleteTransaction, GetReceiptPath, hfind,
        bne_iff_ne, hrole, howner]
  · refine ⟨?_, ?_⟩
    · simp [UpdateTransaction, hfind, hown]
    · simp only [UploadReceipt, hfind, hown, bne_self_eq_false, Bool.false_eq_true,
        if_false]
      by_cases hsz : MaxFileSize < fh.Size
      · simp [hsz]
      · rw [if_neg hsz]
        split <;> simp
  · refine ⟨?_, ?_⟩
    · simp [UpdateTransaction, hfind, bne_iff_ne, hnot]
    · simp [UploadReceipt, hfind, bne_iff_ne, hnot]

/-- C4 witness (for the amended claim): concrete outcomes on the sample
database — the owner updates their own record, a non-owner admin deletes
but cannot update. -/
theorem access_policy_witness :
    FindByID dbSample 3 = some txBus ∧
    DeleteTransaction dbSample 3 1 RoleAdmin = .ok () ∧
    UpdateTransaction dbSample 3 2 reqNone dtJan10
      = .ok (applyUpdates txBus reqNone dtJan10) :=
  ⟨by decide,
   ((access_policy dbSample 3 1 RoleAdmin txBus reqNone dtJan10 fhSmallJpg
      "uploads" (by decide)).1 (Or.inl rfl)).2.1,
   ((access_policy dbSample 3 2 RoleUser txBus reqNone dtJan10 fhSmallJpg
      "uploads" (by decide)).2.2.1 (by decide)).1⟩

/-- C10: an oversized upload is rejected with the file-size error and a
bad extension with the invalid-format error, in both cases with an empty
effect trace — no directory creation, no file write, no store update, so
the transaction record is unchanged. -/
theorem uploadReceipt_validation (db : DB) (transactionID userID : Int)
    (fh : FileHeader) (dir : String) :
    (MaxFileSize < fh.Size →
      (UploadReceipt db transactionID userID fh dir).2 = [] ∧
      (∀ t, FindByID db transactionID = some t → t.UserID = userID →
        UploadReceipt db transactionID userID fh dir
          = (.error .fileSizeExceeded, []))) ∧
    (allowedExts.contains (goToLower (goExt fh.Filename)) = false →
      (UploadReceipt db transactionID userID fh dir).2 = [] ∧
      (∀ t, FindByID db transactionID = some t → t.UserID = userID →
        fh.Size ≤ MaxFileSize →
        UploadReceipt db transactionID userID fh dir
          = (.error .invalidFileFormat, []))) := by
  constructor
  · intro hsz
    constructor
    · unfold UploadReceipt
      cases h : FindByID db transactionID with
      | none => simp
      | some t =>
          by_cases ho : (t.UserID != userID) = true <;> simp [ho, hsz]
    · intro t h hown
      simp [UploadReceipt, h, hown, hsz]
  · intro hext
    have hext' : ¬((goToLower (goExt fh.Filename)) ∈ allowedExts) := by simpa using hext
    constructor
    · unfold UploadReceipt
      cases h : FindByID db transactionID with
      | none => simp
      | some t =>
          by_cases ho : (t.UserID != userID) = true
          · simp [ho]
          · by_cases hsz : MaxFileSize < fh.Size <;> simp [ho, hsz, hext']
    · intro t h hown hsz
      simp [UploadReceipt, h, hown, Nat.not_lt.mpr hsz, hext']

/-- C10 witness: on the sample database, user 1's own transaction 1
rejects an oversized jpg with the size error and a small exe with the
format error, both with no effects. -/
theorem uploadReceipt_validation_witness :
    (MaxFileSize < fhBigJpg.Size ∧
      UploadReceipt dbSample 1 1 fhBigJpg ("uploads")
        = (.error .fileSizeExceeded, [])) ∧
    (allowedExts.contains (goToLower (goExt fhExe.Filename)) = false ∧
      UploadReceipt dbSample 1 1 fhExe ("uploads")
        = (.error .invalidFileFormat, [])) :=
  ⟨⟨by decide,
    ((uploadReceipt_validation dbSample 1 1 fhBigJpg ("uploads")).1 (by decide)).2
      txFood (by decide) (by decide)⟩,
   ⟨by decide,
    ((uploadReceipt_validation dbSample 1 1 fhExe ("uploads")).2 (by decide)).2
      txFood (by decide) (by decide) (by decide)⟩⟩

/-! ## Tabular exporter -/

/-- C9: the CSV buffer is exactly one header record with the fixed
column order followed by one record per transaction, in input order,
with the amount as a decimal integer in minor units, RFC-3339 timestamps
and the empty string for an absent description or receipt path. -/
theorem csv_export_structure (transactions : List Transaction) :
    writeTransactionsCSV transactions
      = writeRecord ["ID", "UserID", "Amount", "Type", "Category", "Description",
          "TransactionDate", "CreatedAt", "ReceiptPath"] ++
        concatAll (transactions.map fun t =>
          writeRecord [toString t.ID, toString t.UserID, toString t.Amount,
            t.Type', t.Category, t.Description.getD (""),
            formatRFC3339 t.TransactionDate, formatRFC3339 t.CreatedAt,
            t.ReceiptPath.getD ("")]) := by
  have key : ∀ (l : List Transaction) (init : String),
      l.foldl (fun buffer t => buffer ++ writeRecord (transactionRow t)) init
        = init ++ concatAll (l.map fun t => writeRecord (transactionRow t)) := by
    intro l
    induction l with
    | nil => intro init; simp [concatAll, String.append_empty]
    | cons t l ih =>
        intro init
        simp [concatAll, List.foldl_cons, ih, String.append_assoc]
  simpa [writeTransactionsCSV, headerFields, transactionRow]
    using key transactions (writeRecord headerFields)

end Expense
